import Mathlib

/-!
Verification development for the asmtp broker core.

Shallow embedding of the passport importer and store
(asmtp-storage/src/passports.rs, asmtp-lib/src/passport_importer.rs),
the broker dispatch and dedup cache (asmtpd/src/network/mod.rs),
message ids (asmtp-lib/src/message_id.rs), the encrypted codec
(asmtp-network/src/codec/encryption.rs), the wire message parser
(asmtp-network/src/message.rs), the REST session cache
(asmtpd/src/rest/sessions.rs) and topic derivation
(asmtp-lib/src/topic.rs).

External cryptographic primitives (keynesis blocks and passports,
Blake2b, PBKDF2, the noise transport) are abstracted: block hashes and
key material are natural numbers, hash functions and the noise receive
are parameters, and the keyring validation contract is modelled from
the spec where noted.
-/

/-! ## Basic data: hashes, keys and blocks -/

/-- Block hash (keynesis Hash, 32 bytes): abstracted as a natural number;
byte-wise lexicographic comparison of fixed 32-byte strings coincides with
numeric comparison of their big-endian values. -/
abbrev BHash := Nat

/-- Ed25519 / X25519 public key (32 bytes), same abstraction as hashes. -/
abbrev PubKey := Nat

/-- Content entry of a passport block (spec section 3, PassportBlock). -/
inductive BlockContent
  | registerMasterKey (pk : PubKey)
  | deregisterMasterKey (pk : PubKey)
  | setSharedKey (pk : PubKey)
deriving DecidableEq, Repr

/-- A keynesis passport block as the importer observes it: its own hash,
its `previous` header field (`none` for the genesis block) and its content;
`sigOk` abstracts whether the block independently verifies against the
upstream keyring library (spec section 4.5, validation step iii). -/
structure Block where
  hash : BHash
  previous : Option BHash
  sigOk : Bool
  content : List BlockContent
deriving DecidableEq, Repr

/-- Modelled from the spec: keynesis `LightPassport` (external keyring
library, not part of this repository). It is the totally ordered chain of
applied block hashes rooted at the genesis (spec section 3, Passport). -/
structure LightPassport where
  chain : List BHash
deriving DecidableEq, Repr

/-- Modelled from the spec: `LightPassport::new` accepts exactly a genesis
block (`previous = None`) that verifies against the keyring library
(spec section 4.5, validation steps i and iii). -/
def LightPassport.new (b : Block) : Option LightPassport :=
  if b.previous = none ∧ b.sigOk then some ⟨[b.hash]⟩ else none

/-- Modelled from the spec: `LightPassport::update` appends a block whose
`previous` equals the hash of the current chain head and which verifies
against the keyring library (spec section 4.5, validation steps ii and iii). -/
def LightPassport.update (p : LightPassport) (b : Block) : Option LightPassport :=
  match b.previous with
  | none => none
  | some parent =>
      if p.chain.getLast? = some parent ∧ b.sigOk then
        some ⟨p.chain ++ [b.hash]⟩
      else
        none

/-! ## PassportImporter (asmtp-lib/src/passport_importer.rs and the copy in
asmtp-storage/src/passports.rs; both have identical logic) -/

/-- State of `PassportImporter`: the passport built so far, the
parent-indexed pending buffer (`HashMap<Hash, Vec<Rc<B>>>` as an
association list) and the set of hashes applied through `load`
(`HashSet<Hash>` as a list). -/
structure PassportImporter where
  current : LightPassport
  pending : List (BHash × List Block)
  added : List BHash
deriving DecidableEq, Repr

/-- PassportImporter::new (passport_importer.rs lines 92-100): builds the
passport from the genesis block; `pending` and `added` start empty (the
genesis hash is not recorded in `added`). -/
def PassportImporter.new (b : Block) : Option PassportImporter :=
  (LightPassport.new b).map fun cur => ⟨cur, [], []⟩

/-- The `entry(parent).or_default().push(block)` update of the pending map. -/
def pendingPush : List (BHash × List Block) → BHash → Block → List (BHash × List Block)
  | [], parent, b => [(parent, [b])]
  | (k, v) :: rest, parent, b =>
      if k = parent then (k, v ++ [b]) :: rest
      else (k, v) :: pendingPush rest parent b

/-- PassportImporter::put (passport_importer.rs lines 147-160): a block with
no parent is refused; otherwise the block is buffered under its parent hash. -/
def PassportImporter.put (imp : PassportImporter) (b : Block) : Option PassportImporter :=
  match b.previous with
  | none => none
  | some parent => some { imp with pending := pendingPush imp.pending parent b }

/-- The `pending.remove(parent)` of PassportImporter::take: returns the
removed entry (if any) and the map without it.  The `Rc::try_unwrap` in the
source always succeeds since each buffered block has a single owner. -/
def pendingRemove : List (BHash × List Block) → BHash → Option (List Block) × List (BHash × List Block)
  | [], _ => (none, [])
  | (k, v) :: rest, id =>
      if k = id then (some v, rest)
      else
        let r := pendingRemove rest id
        (r.1, (k, v) :: r.2)

/-- Total number of buffered blocks, used as part of the drain measure. -/
def pendingBlocks (p : List (BHash × List Block)) : Nat :=
  (p.map (fun kv => kv.2.length)).sum

theorem pendingRemove_fst_none (p : List (BHash × List Block)) (id : BHash)
    (h : (pendingRemove p id).1 = none) : (pendingRemove p id).2 = p := by
  induction p with
  | nil => simp [pendingRemove]
  | cons kv rest ih =>
      obtain ⟨k, v⟩ := kv
      by_cases hk : k = id
      · simp [pendingRemove, hk] at h
      · simp [pendingRemove, hk] at h ⊢
        exact ih h

theorem pendingRemove_fst_some (p : List (BHash × List Block)) (id : BHash)
    (cs : List Block) (h : (pendingRemove p id).1 = some cs) :
    (pendingRemove p id).2.length + 1 = p.length ∧
      pendingBlocks (pendingRemove p id).2 + cs.length = pendingBlocks p := by
  induction p with
  | nil => simp [pendingRemove] at h
  | cons kv rest ih =>
      obtain ⟨k, v⟩ := kv
      by_cases hk : k = id
      · simp [pendingRemove, hk] at h ⊢
        subst h
        simp [pendingBlocks]
        omega
      · simp [pendingRemove, hk] at h ⊢
        obtain ⟨h1, h2⟩ := ih h
        constructor
        · omega
        · simp [pendingBlocks] at h2 ⊢
          omega

/-- Applies the drained children of one parent in order: each child is
applied to the passport and its hash inserted into `added`
(passport_importer.rs lines 135-141, loop body). -/
def applyAll (cur : LightPassport) (added : List BHash) :
    List Block → Option (LightPassport × List BHash)
  | [] => some (cur, added)
  | b :: bs =>
      match cur.update b with
      | none => none
      | some cur2 => applyAll cur2 (b.hash :: added) bs

/-- The transitive drain of PassportImporter::load (passport_importer.rs
lines 132-141): pop a hash from the resolved queue, take its buffered
children, apply them and queue their hashes, until the queue is empty. -/
def drainLoop (cur : LightPassport) (pending : List (BHash × List Block))
    (added : List BHash) (queue : List BHash) :
    Option (LightPassport × List (BHash × List Block) × List BHash) :=
  match queue with
  | [] => some (cur, pending, added)
  | id :: rest =>
      match h : (pendingRemove pending id).1 with
      | none => drainLoop cur pending added rest
      | some cs =>
          match applyAll cur added cs with
          | none => none
          | some (cur2, added2) =>
              drainLoop cur2 (pendingRemove pending id).2 added2
                (rest ++ cs.map (fun b => b.hash))
termination_by pending.length + pendingBlocks pending + queue.length
decreasing_by
  · simp
  · have := pendingRemove_fst_some pending id cs h
    simp
    omega

/-- PassportImporter::load (passport_importer.rs lines 118-145): if the
block's parent hash is not in `added`, buffer the block; otherwise apply it
and transitively drain every buffered child of each newly applied block. -/
def PassportImporter.load (imp : PassportImporter) (b : Block) : Option PassportImporter :=
  match b.previous with
  | none => none
  | some parent =>
      if parent ∈ imp.added then
        match imp.current.update b with
        | none => none
        | some cur =>
            match drainLoop cur imp.pending (b.hash :: imp.added) [b.hash] with
            | none => none
            | some (cur2, pending2, added2) => some ⟨cur2, pending2, added2⟩
      else
        imp.put b

/-- PassportImporter::finalize (passport_importer.rs lines 164-170): fails
while blocks are still pending to be applied on the passport. -/
def PassportImporter.finalize (imp : PassportImporter) : Option LightPassport :=
  if imp.pending = [] then some imp.current else none

/-- PassportImporter::from_blocks (passport_importer.rs lines 102-116 and
passports.rs lines 44-58): the first block seeds the importer, every further
block goes through `put` (not `load`), then `finalize`. -/
def PassportImporter.from_blocks : List Block → Option LightPassport
  | [] => none
  | head :: rest => do
      let imp ← PassportImporter.new head
      let imp ← rest.foldlM PassportImporter.put imp
      imp.finalize

/-! ## Passports store (asmtp-storage/src/passports.rs) -/

/-- Sled key of a stored block: the head block is keyed by the passport id
alone, a tail block by the id, the separator and the block hash.  Keys are
compared as sled compares the underlying byte strings: by id first, a bare
id before its extensions, extensions by block hash. -/
def keyLt : BHash × Option BHash → BHash × Option BHash → Bool := fun a b =>
  a.1 < b.1 ||
    (a.1 = b.1 &&
      (match a.2, b.2 with
       | none, some _ => true
       | some x, some y => x < y
       | _, _ => false))

/-- Key-ordered insertion into the sled blocks tree (overwrites a key that
is already present, as sled insert does). -/
def treeInsert : List ((BHash × Option BHash) × Block) → BHash × Option BHash → Block →
    List ((BHash × Option BHash) × Block)
  | [], k, b => [(k, b)]
  | (k0, b0) :: rest, k, b =>
      if k0 = k then (k, b) :: rest
      else if keyLt k k0 then (k, b) :: (k0, b0) :: rest
      else (k0, b0) :: treeInsert rest k b

/-- Insert-or-replace in the reverse index tree (public key to passport id). -/
def idsInsert : List (PubKey × BHash) → PubKey → BHash → List (PubKey × BHash)
  | [], pk, id => [(pk, id)]
  | (k, v) :: rest, pk, id =>
      if k = pk then (pk, id) :: rest else (k, v) :: idsInsert rest pk id

/-- Removal from the reverse index tree. -/
def idsRemove (l : List (PubKey × BHash)) (pk : PubKey) : List (PubKey × BHash) :=
  l.filter (fun kv => kv.1 ≠ pk)

/-- The Passports store (passports.rs lines 14-19).  In the source the
`passport_id` tree is opened with the same name as the `blocks` tree
(both use PASSPORT_BLOCKS, passports.rs lines 143-148), so they alias one
sled tree; the model therefore keeps a single `blocks` map.  The `ids`
tree is the reverse index. -/
structure Passports where
  blocks : List ((BHash × Option BHash) × Block)
  ids : List (PubKey × BHash)
deriving DecidableEq, Repr

/-- The empty store. -/
def emptyPassports : Passports := ⟨[], []⟩

/-- Passports::put_public_id (passports.rs lines 265-278). -/
def Passports.put_public_id (db : Passports) (pk : PubKey) (id : BHash) : Passports :=
  { db with ids := idsInsert db.ids pk id }

/-- Passports::put_block (passports.rs lines 295-310): store the block under
the given key, then update the reverse index from the block content. -/
def Passports.put_block (db : Passports) (key : BHash × Option BHash) (id : BHash)
    (b : Block) : Passports :=
  let db := { db with blocks := treeInsert db.blocks key b }
  b.content.foldl
    (fun d c =>
      match c with
      | BlockContent.registerMasterKey pk => d.put_public_id pk id
      | BlockContent.deregisterMasterKey pk => { d with ids := idsRemove d.ids pk }
      | BlockContent.setSharedKey pk => d.put_public_id pk id)
    db

/-- Passports::put_block_head (passports.rs lines 280-285): the
`passport_id.insert(id, [])` lands in the same aliased tree and is
immediately overwritten by `put_block` under the same key. -/
def Passports.put_block_head (db : Passports) (b : Block) : Passports :=
  db.put_block (b.hash, none) b.hash b

/-- Passports::put_block_tail (passports.rs lines 287-293). -/
def Passports.put_block_tail (db : Passports) (id : BHash) (b : Block) : Passports :=
  db.put_block (id, some b.hash) id b

/-- Passports::put_passport (passports.rs lines 195-210): validate the
whole chain through PassportImporter::from_blocks, then store the head and
the tail blocks; returns the genesis hash as the passport id. -/
def Passports.put_passport (db : Passports) (bs : List Block) : Option (Passports × BHash) :=
  match PassportImporter.from_blocks bs with
  | none => none
  | some _passport =>
      match bs with
      | [] => none
      | head :: rest =>
          let id := head.hash
          let db := db.put_block_head head
          let db := rest.foldl (fun d b => d.put_block_tail id b) db
          some (db, id)

/-- Passports::get_blocks (passports.rs lines 235-246): prefix scan of the
blocks tree on the passport id; an id absent from the store yields the
empty list, not an error. -/
def Passports.get_blocks (db : Passports) (id : BHash) : List Block :=
  (db.blocks.filter (fun kv => kv.1.1 = id)).map (fun kv => kv.2)

/-! ## Storage and broker dispatch for passports (asmtpd/src/storage/mod.rs,
asmtpd/src/network/mod.rs) -/

/-- Storage::handle_put_passport (storage/mod.rs lines 134-153): reject a
peer outside the privileged user set; otherwise run put_passport and only
afterwards check that the resulting id matches the declared one.  The
returned pair is the store state after the call and whether it succeeded;
on the id-mismatch error the writes of put_passport are kept. -/
def Storage.handle_put_passport (users : List PubKey) (db : Passports) (peer : PubKey)
    (id : BHash) (bs : List Block) : Passports × Bool :=
  if peer ∈ users then
    match db.put_passport bs with
    | none => (db, false)
    | some (db2, rid) => if rid = id then (db2, true) else (db2, false)
  else (db, false)

/-- Storage::handle_get_passport (storage/mod.rs lines 130-132) simply
forwards Passports::get_blocks; its error case covers only backend
I/O or corrupt stored bytes, never a missing id, so the model is total. -/
def Storage.handle_get_passport (db : Passports) (id : BHash) : Option (List Block) :=
  some (db.get_blocks id)

/-- A message the broker sends back to a peer while dispatching. -/
inductive OutMessage
  | putPassport (id : BHash) (blocks : List Block)
deriving DecidableEq, Repr

/-- The GetPassport branch of Runner::handle_message (network/mod.rs lines
352-359): fetch the blocks (an error would skip the reply and only log) and
send a PutPassport message carrying them to the requesting peer. -/
def Runner.dispatch_get_passport (db : Passports) (peer : PubKey) (id : BHash) :
    List (PubKey × OutMessage) :=
  match Storage.handle_get_passport db id with
  | none => []
  | some blocks => [(peer, OutMessage.putPassport id blocks)]

/-! ## Concrete blocks used as inputs below -/

/-- A genesis block that verifies against the keyring model. -/
def b0c : Block := ⟨0, none, true, []⟩

/-- A child of the genesis block that verifies against the keyring model. -/
def b1c : Block := ⟨1, some 0, true, []⟩

/-! ## Claims C1 to C4 -/

/-- Claim C1: the two-block chain [b0c, b1c] is a valid chain for the
keyring model (the genesis applies and the child applies on top of it), yet
PassportImporter::from_blocks rejects it — every block after the head is
buffered through `put` and never applied, so `finalize` fails — and
therefore Passports::put_passport fails on it instead of storing the chain
and returning the genesis hash. -/
theorem c1_put_passport_rejects_valid_two_block_chain :
    (LightPassport.new b0c).bind (fun p => p.update b1c) =
        some ⟨[0, 1]⟩ ∧
      PassportImporter.from_blocks [b0c, b1c] = none ∧
      Passports.put_passport emptyPassports [b0c, b1c] = none := by
  decide

/-- Claim C2: after the importer is constructed from the genesis block b0c,
`load` of b1c (whose previous is the genesis hash) does not apply the block:
the genesis hash is never recorded in `added`, so b1c is buffered in
`pending` while `added` stays empty, and `finalize` then fails instead of
succeeding with no pending blocks. -/
theorem c2_load_buffers_child_of_genesis :
    ((PassportImporter.new b0c).bind (fun i => i.load b1c)).map
        (fun i => (i.pending, i.added)) = some ([(0, [b1c])], []) ∧
      ((PassportImporter.new b0c).bind (fun i => i.load b1c)).bind
        PassportImporter.finalize = none := by
  decide

/-- Claim C3 counterexample: peer 7 is privileged, the single-block chain
[b0c] validates and its genesis hash 0 differs from the declared id 9;
handle_put_passport reports the error, but the store is not left unchanged:
the genesis block has been persisted before the id check. -/
theorem c3_error_but_store_changed :
    (Storage.handle_put_passport [7] emptyPassports 7 9 [b0c]).2 = false ∧
      (Storage.handle_put_passport [7] emptyPassports 7 9 [b0c]).1 ≠ emptyPassports ∧
      (Storage.handle_put_passport [7] emptyPassports 7 9 [b0c]).1.blocks =
        [((0, none), b0c)] := by
  decide

/-- Claim C3 amended: for every privileged peer and every chain accepted by
put_passport whose resulting genesis id differs from the declared one,
handle_put_passport returns an error, but the store keeps the state written
by put_passport (the chain has been persisted before the id check). -/
theorem c3_amended_error_keeps_written_state (users : List PubKey) (db : Passports)
    (peer : PubKey) (id : BHash) (bs : List Block) (db2 : Passports) (rid : BHash)
    (hpeer : peer ∈ users) (hput : db.put_passport bs = some (db2, rid))
    (hneq : rid ≠ id) :
    Storage.handle_put_passport users db peer id bs = (db2, false) := by
  simp [Storage.handle_put_passport, hpeer, hput, hneq]

/-- Claim C3 amended, witness at the concrete input of the counterexample. -/
theorem c3_amended_error_keeps_written_state_witness :
    Storage.handle_put_passport [7] emptyPassports 7 9 [b0c] =
      (⟨[((0, none), b0c)], []⟩, false) :=
  c3_amended_error_keeps_written_state [7] emptyPassports 7 9 [b0c]
    ⟨[((0, none), b0c)], []⟩ 0 (by decide) (by decide) (by decide)

/-- Claim C4: for an id absent from the passport store, get_blocks returns
the empty chain instead of an error, so the broker does send a reply to the
requesting peer: a PutPassport message with the declared id and an empty
block list. -/
theorem c4_unknown_passport_still_gets_reply :
    Passports.get_blocks emptyPassports 42 = [] ∧
      Runner.dispatch_get_passport emptyPassports 3 42 =
        [(3, OutMessage.putPassport 42 [])] := by
  decide

/-! ## MessageCache, the broker's dedup cache (asmtpd/src/network/mod.rs
lines 51-75) -/

/-- A Blake2b-256 digest, abstracted as a natural number; MessageCache::check
hashes the payload with Blake2b before touching the cache, and the claims
below are about the cache of digests. -/
abbrev Digest := Nat

/-- MessageCache (network/mod.rs lines 51-54): the bound and the IndexSet of
digests in insertion order, head oldest. -/
structure MessageCache where
  max : Nat
  messages : List Digest
deriving DecidableEq, Repr

/-- The `while len >= max { pop() }` loop of MessageCache::check:
IndexSet::pop removes the LAST element (the most recently inserted one).
For max = 0 and a non-empty start the loop still empties the set, and on an
empty set the source loops forever; the claims below assume max at least 1,
where the model agrees with the source. -/
def popUntilBelow (max : Nat) : List Digest → List Digest
  | [] => []
  | d :: rest =>
      if (d :: rest).length ≥ max then popUntilBelow max (d :: rest).dropLast
      else d :: rest
termination_by s => s.length
decreasing_by simp [List.length_dropLast]

/-- MessageCache::check (network/mod.rs lines 64-74) on an already computed
digest: pop from the back until below capacity, then IndexSet::insert, which
returns whether the digest is novel and appends it at the back if so. -/
def MessageCache.check (c : MessageCache) (digest : Digest) : MessageCache × Bool :=
  let msgs := popUntilBelow c.max c.messages
  if digest ∈ msgs then ({ c with messages := msgs }, false)
  else ({ c with messages := msgs ++ [digest] }, true)

theorem popUntilBelow_of_lt (max : Nat) (s : List Digest) (h : s.length < max) :
    popUntilBelow max s = s := by
  cases s with
  | nil => simp [popUntilBelow]
  | cons d rest =>
      rw [popUntilBelow]
      simp at h
      simp [Nat.not_le_of_lt h]

theorem popUntilBelow_length_lt (max : Nat) (hmax : 1 ≤ max) (s : List Digest) :
    (popUntilBelow max s).length < max := by
  induction s using popUntilBelow.induct max with
  | case1 => simpa [popUntilBelow]
  | case2 d rest hcond ih => rw [popUntilBelow, if_pos hcond]; exact ih
  | case3 d rest hcond => rw [popUntilBelow, if_neg hcond]; omega

theorem popUntilBelow_at_capacity (max : Nat) (s : List Digest) (hmax : 1 ≤ max)
    (hlen : s.length = max) : popUntilBelow max s = s.dropLast := by
  cases s with
  | nil => simp at hlen; omega
  | cons d rest =>
      rw [popUntilBelow, if_pos (by omega)]
      exact popUntilBelow_of_lt max _ (by simp [List.length_dropLast] at hlen ⊢; omega)

/-- Claim C5 counterexample: a cache of capacity 2 holding the digests
[0, 1] (0 oldest) receives the new digest 2 at capacity; the element
discarded is 1, the MOST recently inserted digest, while the oldest digest 0
is retained — the opposite of the claimed eviction order. -/
theorem c5_eviction_discards_newest_not_oldest :
    (MessageCache.check ⟨2, [0, 1]⟩ 2).1.messages = [0, 2] ∧
      (1 : Digest) ∉ (MessageCache.check ⟨2, [0, 1]⟩ 2).1.messages ∧
      (0 : Digest) ∈ (MessageCache.check ⟨2, [0, 1]⟩ 2).1.messages := by
  have h : popUntilBelow 2 [0, 1] = [0] := by
    rw [popUntilBelow_at_capacity 2 [0, 1] (by norm_num) (by simp)]
    simp
  refine ⟨?_, ?_, ?_⟩ <;> simp [MessageCache.check, h]

/-- Claim C5 amended: with a capacity of at least 1, the cache never holds
more than max digests after a check, and when a novel digest arrives with
the cache exactly at capacity the discarded element is the most recently
inserted digest (the list loses its last element), the older digests being
retained in order. -/
theorem c5_amended_bound_and_newest_evicted (c : MessageCache) (d : Digest)
    (hmax : 1 ≤ c.max) :
    (c.check d).1.messages.length ≤ c.max ∧
      (c.messages.length = c.max → d ∉ c.messages →
        (c.check d).1.messages = c.messages.dropLast ++ [d]) := by
  constructor
  · have hlt := popUntilBelow_length_lt c.max hmax c.messages
    by_cases hmem : d ∈ popUntilBelow c.max c.messages <;>
      simp [MessageCache.check, hmem] <;> omega
  · intro hlen hmem
    have hpop := popUntilBelow_at_capacity c.max c.messages hmax hlen
    have hnot : d ∉ c.messages.dropLast := fun hin => hmem (List.dropLast_sublist _ |>.mem hin)
    simp [MessageCache.check, hpop, hnot]

/-- Claim C5 amended, witness: capacity 2, cache [0, 1], novel digest 2. -/
theorem c5_amended_bound_and_newest_evicted_witness :
    (MessageCache.check ⟨2, [0, 1]⟩ 2).1.messages.length ≤ 2 ∧
      (MessageCache.check ⟨2, [0, 1]⟩ 2).1.messages = [0, 2] := by
  have h := c5_amended_bound_and_newest_evicted ⟨2, [0, 1]⟩ 2 (by norm_num)
  exact ⟨h.1, by simpa using h.2 (by simp) (by simp)⟩

/-! ## MessageId (asmtp-lib/src/message_id.rs, asmtp-storage/src/message.rs) -/

/-- Big-endian byte decomposition of a u32 arrival time
(`time.to_be_bytes()`, message_id.rs line 46). -/
def beBytes4 (t : Nat) : List Nat :=
  [t / 16777216 % 256, t / 65536 % 256, t / 256 % 256, t % 256]

/-- The bytes of MessageId::new for a message with arrival time t and
blake2b-128 payload digest h (message_id.rs lines 35-49): 4 bytes of
big-endian time followed by the 16 digest bytes; the digest is abstract. -/
def messageIdBytes (t : Nat) (h : List Nat) : List Nat := beBytes4 t ++ h

/-- Lexicographic strict comparison of byte strings, as sled compares keys. -/
def lexLt : List Nat → List Nat → Bool
  | [], [] => false
  | [], _ :: _ => true
  | _ :: _, [] => false
  | a :: as, b :: bs => if a < b then true else if a = b then lexLt as bs else false

/-- Claim C6 counterexample: the same payload (digest 9 repeated) inserted
twice within the same arrival second 5 — the first insertion strictly
before the second — produces identical message ids, so id(m1) < id(m2)
fails in lexicographic order. -/
theorem c6_same_second_breaks_strict_order :
    lexLt (messageIdBytes 5 (List.replicate 16 9))
        (messageIdBytes 5 (List.replicate 16 9)) = false := by
  decide

/-- Claim C6 amended: whenever the arrival times strictly increase
(the two insertions land in distinct seconds), the message ids are strictly
increasing in lexicographic byte order, whatever the two payload digests
are: the big-endian time prefix decides the comparison. -/
theorem c6_amended_strictly_later_time_gives_greater_id (t1 t2 : Nat)
    (h1 h2 : List Nat) (hlt : t1 < t2) (hbound : t2 < 4294967296) :
    lexLt (messageIdBytes t1 h1) (messageIdBytes t2 h2) = true := by
  simp only [messageIdBytes, beBytes4, List.cons_append, List.nil_append]
  simp only [lexLt]
  split_ifs <;> first | rfl | (exfalso; omega)

/-- Claim C6 amended, witness: time 1 with the all-255 digest still sorts
strictly below time 2 with the all-0 digest. -/
theorem c6_amended_witness :
    lexLt (messageIdBytes 1 (List.replicate 16 255))
        (messageIdBytes 2 (List.replicate 16 0)) = true :=
  c6_amended_strictly_later_time_gives_greater_id 1 2 _ _ (by norm_num) (by norm_num)

/-! ## Topic derivation (asmtp-lib/src/topic.rs) -/

/-- A 32-byte topic, abstracted as a natural number. -/
abbrev TopicT := Nat

/-- mk_topic (topic.rs lines 31-44): order the two X25519 public keys
(byte-wise comparison of the 32-byte keys, i.e. numeric comparison of the
abstraction), then derive the topic with PBKDF2-HMAC-SHA-512 over 10240
iterations keyed on the smaller key with the larger key as salt; the
derivation itself is external and appears as the parameter kdf. -/
def mk_topic (kdf : PubKey → PubKey → TopicT) (key1 key2 : PubKey) : TopicT :=
  let p := if key1 < key2 then (key1, key2) else (key2, key1)
  kdf p.1 p.2

/-- Claim C10: mk_topic is symmetric in its two key arguments — the keys are
sorted before the PBKDF2 derivation, so both participants derive the same
topic regardless of argument order. -/
theorem c10_mk_topic_symmetric (kdf : PubKey → PubKey → TopicT) (k1 k2 : PubKey) :
    mk_topic kdf k1 k2 = mk_topic kdf k2 k1 := by
  unfold mk_topic
  rcases lt_trichotomy k1 k2 with h | h | h
  · have h2 : ¬ k2 < k1 := Nat.lt_asymm h
    simp [h, h2]
  · subst h
    simp
  · have h2 : ¬ k1 < k2 := Nat.lt_asymm h
    simp [h, h2]

/-! ## Encrypted codec decoder (asmtp-network/src/codec/encryption.rs) -/

/-- Fatal decode errors of the codec; the source raises io errors with the
messages "frame is too short", "frame is too long" and the noise error. -/
inductive DecodeErr
  | tooShort
  | tooLong
  | macFailure
deriving DecidableEq, Repr

/-- Decoder state (encryption.rs lines 52-55). -/
inductive CodecState
  | head
  | data (n : Nat)
deriving DecidableEq, Repr

/-- NoiseEncryptedDecoder::decode_head (encryption.rs lines 104-128): with
fewer than 2 buffered bytes, wait for more; otherwise read the big-endian
u16 frame length n, reject n below MIN_FRAME_LENGTH = 16 as "frame is too
short" and n above MAX_FRAME_LENGTH = 65535 - 2 as "frame is too long". -/
def decode_head (src : List Nat) : Except DecodeErr (Option (Nat × List Nat)) :=
  match src with
  | b0 :: b1 :: rest =>
      let n := b0 * 256 + b1
      if n < 16 then Except.error DecodeErr.tooShort
      else if n > 65533 then Except.error DecodeErr.tooLong
      else Except.ok (some (n, rest))
  | _ => Except.ok none

/-- NoiseEncryptedDecoder::decode_data (encryption.rs lines 130-143): with
fewer than n buffered bytes, wait for more; otherwise split off the n-byte
ciphertext and decrypt it into a buffer of n - 16 bytes through the noise
transport `recv` (ciphertext, output size); a noise failure is fatal.
The source computes the output size as `n.wrapping_sub(16)`; every n
reaching this point through decode_head satisfies n at least 16. -/
def decode_data (recv : List Nat → Nat → Option (List Nat)) (n : Nat)
    (src : List Nat) : Except DecodeErr (Option (List Nat × List Nat)) :=
  if src.length < n then Except.ok none
  else
    match recv (src.take n) (n - 16) with
    | none => Except.error DecodeErr.macFailure
    | some pt => Except.ok (some (pt, src.drop n))

/-- Decoder::decode for NoiseEncryptedDecoder (encryption.rs lines 146-171):
run decode_head in the head state, then decode_data; the result is the
optional decoded plaintext, the next state and the remaining buffer. -/
def decode (recv : List Nat → Nat → Option (List Nat)) (st : CodecState)
    (src : List Nat) :
    Except DecodeErr (Option (List Nat) × CodecState × List Nat) :=
  match st with
  | CodecState.head =>
      match decode_head src with
      | Except.error e => Except.error e
      | Except.ok none => Except.ok (none, CodecState.head, src)
      | Except.ok (some (n, rest)) =>
          match decode_data recv n rest with
          | Except.error e => Except.error e
          | Except.ok none => Except.ok (none, CodecState.data n, rest)
          | Except.ok (some (pt, rest2)) =>
              Except.ok (some pt, CodecState.head, rest2)
  | CodecState.data n =>
      match decode_data recv n src with
      | Except.error e => Except.error e
      | Except.ok none => Except.ok (none, CodecState.data n, src)
      | Except.ok (some (pt, rest2)) => Except.ok (some pt, CodecState.head, rest2)

/-- Claim C7: under the noise contract that a successful receive fills
exactly the provided output size, a declared frame length of exactly 16
(header bytes 0, 16) decodes successfully to the empty plaintext whenever
the MAC verifies; a declared length below 16 is the fatal "frame is too
short" error; a declared length above 65533 = 65535 - 2 is the fatal
"frame is too long" error. -/
theorem c7_frame_length_boundaries (recv : List Nat → Nat → Option (List Nat))
    (hrecv : ∀ ct k out, recv ct k = some out → out.length = k) :
    (∀ ct rest, ct.length = 16 → recv ct 0 ≠ none →
      decode recv CodecState.head (0 :: 16 :: (ct ++ rest)) =
        Except.ok (some [], CodecState.head, rest)) ∧
      (∀ b0 b1 rest, b0 * 256 + b1 < 16 →
        decode recv CodecState.head (b0 :: b1 :: rest) =
          Except.error DecodeErr.tooShort) ∧
      (∀ b0 b1 rest, b0 * 256 + b1 > 65533 →
        decode recv CodecState.head (b0 :: b1 :: rest) =
          Except.error DecodeErr.tooLong) := by
  refine ⟨?_, ?_, ?_⟩
  · intro ct rest hlen hmac
    match hr : recv ct 0 with
    | none => exact absurd hr hmac
    | some out =>
        have hout : out = [] := List.eq_nil_of_length_eq_zero (hrecv ct 0 out hr)
        subst hout
        have hlen2 : ¬ (ct ++ rest).length < 16 := by
          simp [List.length_append, hlen]
        have htake : (ct ++ rest).take 16 = ct := by
          rw [← hlen]
          exact List.take_left ct rest
        have hdrop : (ct ++ rest).drop 16 = rest := by
          rw [← hlen]
          exact List.drop_left ct rest
        have hlen3 : ¬ ct.length + rest.length < 16 := by omega
        simp [decode, decode_head, decode_data, hlen2, hlen3, htake, hdrop, hr]
  · intro b0 b1 rest hshort
    simp [decode, decode_head, hshort]
  · intro b0 b1 rest hlong
    have hns : ¬ b0 * 256 + b1 < 16 := by omega
    simp [decode, decode_head, hns, hlong]

/-- Claim C7, witness: an all-zero 16-byte ciphertext behind the header
[0, 16] decodes to the empty plaintext; header [0, 15] is "frame is too
short"; header [255, 255] is "frame is too long". -/
theorem c7_frame_length_boundaries_witness :
    decode (fun _ k => some (List.replicate k 0)) CodecState.head
        (0 :: 16 :: List.replicate 16 0) =
        Except.ok (some [], CodecState.head, []) ∧
      decode (fun _ k => some (List.replicate k 0)) CodecState.head
          [0, 15, 1, 2] = Except.error DecodeErr.tooShort ∧
      decode (fun _ k => some (List.replicate k 0)) CodecState.head
          [255, 255] = Except.error DecodeErr.tooLong := by
  have h := c7_frame_length_boundaries (fun _ k => some (List.replicate k 0))
    (by intro ct k out hout; simp at hout; simp [← hout])
  refine ⟨?_, ?_, ?_⟩
  · have h1 := h.1 (List.replicate 16 0) [] (by simp) (by simp)
    simpa using h1
  · exact h.2.1 0 15 [1, 2] (by norm_num)
  · exact h.2.2 255 255 [] (by norm_num)

/-! ## Wire message parsing (asmtp-network/src/message.rs) -/

/-- Message tags (message.rs lines 13-24). -/
inductive MessageType
  | gossip
  | topic
  | putPassport
  | getPassport
  | registerTopic
  | deregisterTopic
  | queryTopicMessages
deriving DecidableEq, Repr

/-- MessageType::try_from_u8 (message.rs lines 41-53). -/
def MessageType.try_from_u8 (t : Nat) : Option MessageType :=
  if t = 1 then some MessageType.gossip
  else if t = 2 then some MessageType.topic
  else if t = 3 then some MessageType.putPassport
  else if t = 4 then some MessageType.getPassport
  else if t = 5 then some MessageType.registerTopic
  else if t = 6 then some MessageType.deregisterTopic
  else if t = 7 then some MessageType.queryTopicMessages
  else none

/-- Outcome of parsing a byte slice: a parsed message, a returned error
value, or a Rust panic (assertion failure or unwrap of a failed
conversion). -/
inductive ParseOutcome
  | ok
  | err
  | panicked
deriving DecidableEq, Repr

/-- MessageSlice::try_from_slice (message.rs lines 198-247) over a byte
string.  gossipOk abstracts the external poldercast GossipSlice parser and
ppOk the external keynesis PassportBlocksSlice parser (whether they accept
the payload).  MIN_SIZE is 33 = tag + 32-byte hash; from_slice_unchecked
(lines 250-261) asserts the slice is no longer than MAX_SIZE = 65533 - 1,
panicking otherwise.  For the QueryTopicMessages shape the source runs
`u32::from_be_bytes(slice[33..].try_into().unwrap())` (line 354), which
panics unless exactly 4 bytes follow the 32-byte topic. -/
def MessageSlice.try_from_slice (gossipOk ppOk : List Nat → Bool)
    (s : List Nat) : ParseOutcome :=
  if s.length < 33 then ParseOutcome.err
  else
    match MessageType.try_from_u8 (s.headD 0) with
    | none => ParseOutcome.err
    | some mt =>
        if s.length > 65532 then ParseOutcome.panicked
        else
          match mt with
          | MessageType.gossip =>
              if gossipOk (s.drop 1) then ParseOutcome.ok else ParseOutcome.err
          | MessageType.topic => ParseOutcome.ok
          | MessageType.putPassport =>
              if ppOk (s.drop 33) then ParseOutcome.ok else ParseOutcome.err
          | MessageType.getPassport =>
              if s.length = 33 then ParseOutcome.ok else ParseOutcome.err
          | MessageType.registerTopic => ParseOutcome.ok
          | MessageType.deregisterTopic => ParseOutcome.ok
          | MessageType.queryTopicMessages =>
              if s.length - 33 = 4 then ParseOutcome.ok else ParseOutcome.panicked

/-- Claim C8: a 33-byte slice carrying the recognised QueryTopicMessages
tag 7 whose payload after the 32-byte topic is empty (not the required
4 bytes of the since-time) makes try_from_slice panic on the unwrap of the
failed 4-byte conversion, instead of returning an error value — the parser
is not total on slices of at least 33 bytes. -/
theorem c8_query_topic_messages_bad_length_panics :
    MessageSlice.try_from_slice (fun _ => true) (fun _ => true)
        (7 :: List.replicate 32 0) = ParseOutcome.panicked ∧
      (7 :: List.replicate 32 0).length ≥ 33 := by
  decide

/-! ## REST session cache (asmtpd/src/rest/sessions.rs,
asmtpd/src/rest/session.rs) -/

/-- Noise session id (64 bytes), abstracted as a natural number. -/
abbrev SessionId := Nat

/-- A REST session: creation instant and last-use instant, in whole seconds
(the source compares `Duration::as_secs` of Instant differences). -/
structure Session where
  started : Nat
  lastUsed : Nat
deriving DecidableEq, Repr

/-- Result of Sessions::lookup (sessions.rs lines 11-19): the session is
returned on success, after its last-use instant has been refreshed. -/
inductive LookupResult
  | ok (s : Session)
  | expired
  | idleTooLong
  | notFound
deriving DecidableEq, Repr

/-- LruCache::pop of the session id (the eviction in lookup). -/
def sessionsPop : List (SessionId × Session) → SessionId → List (SessionId × Session)
  | [], _ => []
  | kv :: rest, sid =>
      if kv.1 = sid then sessionsPop rest sid else kv :: sessionsPop rest sid

/-- The in-place `last_used = now` refresh of SessionInternal::update_last_use
(session.rs lines 34-41) as seen through the shared cache. -/
def sessionsRefresh : List (SessionId × Session) → SessionId → Nat → List (SessionId × Session)
  | [], _, _ => []
  | kv :: rest, sid, now =>
      if kv.1 = sid then (kv.1, { kv.2 with lastUsed := now }) :: sessionsRefresh rest sid now
      else kv :: sessionsRefresh rest sid now

/-- Sessions::lookup (sessions.rs lines 48-67) with the clock passed in:
a missing id is NotFound; otherwise the lifespan (now - started) is checked
against max_lifespan first (evict and report Expired on breach), then the
idle time (now - last_used) against max_idle (the check itself refreshes
last_used before the entry is evicted, so eviction hides the refresh), and
otherwise the refreshed session is returned.  The LRU reordering done by
LruCache::get is not observable through lookup and is not modelled. -/
def Sessions.lookup (maxLifespan maxIdle now : Nat)
    (cache : List (SessionId × Session)) (sid : SessionId) :
    LookupResult × List (SessionId × Session) :=
  match cache.lookup sid with
  | none => (LookupResult.notFound, cache)
  | some s =>
      if now - s.started > maxLifespan then
        (LookupResult.expired, sessionsPop cache sid)
      else if now - s.lastUsed > maxIdle then
        (LookupResult.idleTooLong, sessionsPop cache sid)
      else
        (LookupResult.ok { s with lastUsed := now },
          sessionsRefresh cache sid now)

theorem sessionsPop_lookup (l : List (SessionId × Session)) (sid : SessionId) :
    (sessionsPop l sid).lookup sid = none := by
  induction l with
  | nil => rfl
  | cons kv rest ih =>
      obtain ⟨k, v⟩ := kv
      by_cases hk : k = sid
      · simpa [sessionsPop, hk] using ih
      · have hne : (sid == k) = false := by simp [Ne.symm hk]
        simpa [sessionsPop, hk, List.lookup, hne] using ih

theorem sessionsRefresh_lookup (l : List (SessionId × Session)) (sid : SessionId)
    (now : Nat) (s : Session) (h : l.lookup sid = some s) :
    (sessionsRefresh l sid now).lookup sid = some { s with lastUsed := now } := by
  induction l with
  | nil => simp [List.lookup] at h
  | cons kv rest ih =>
      obtain ⟨k, v⟩ := kv
      by_cases hk : k = sid
      · subst hk
        simp [List.lookup] at h
        subst h
        simp [sessionsRefresh, List.lookup]
      · have hne : (sid == k) = false := by simp [Ne.symm hk]
        simp [List.lookup, hne] at h
        simpa [sessionsRefresh, List.lookup, hk, hne] using ih h

/-- Claim C9: Sessions::lookup checks in order — an id with no cached
session yields NotFound and leaves the cache alone; a lifespan beyond
max_lifespan evicts the session (it is no longer found) and returns
Expired; otherwise an idle time beyond max_idle evicts the session and
returns IdleTooLong; otherwise the session is returned with last_used
refreshed to now, and the cached entry carries the refreshed last_used. -/
theorem c9_lookup_checks (maxLifespan maxIdle now : Nat)
    (cache : List (SessionId × Session)) (sid : SessionId) :
    (cache.lookup sid = none →
        Sessions.lookup maxLifespan maxIdle now cache sid =
          (LookupResult.notFound, cache)) ∧
      (∀ s, cache.lookup sid = some s →
        (now - s.started > maxLifespan →
            (Sessions.lookup maxLifespan maxIdle now cache sid).1 =
                LookupResult.expired ∧
              (Sessions.lookup maxLifespan maxIdle now cache sid).2.lookup sid =
                none) ∧
          (now - s.started ≤ maxLifespan → now - s.lastUsed > maxIdle →
            (Sessions.lookup maxLifespan maxIdle now cache sid).1 =
                LookupResult.idleTooLong ∧
              (Sessions.lookup maxLifespan maxIdle now cache sid).2.lookup sid =
                none) ∧
          (now - s.started ≤ maxLifespan → now - s.lastUsed ≤ maxIdle →
            (Sessions.lookup maxLifespan maxIdle now cache sid).1 =
                LookupResult.ok { s with lastUsed := now } ∧
              (Sessions.lookup maxLifespan maxIdle now cache sid).2.lookup sid =
                some { s with lastUsed := now })) := by
  constructor
  · intro hnone
    simp [Sessions.lookup, hnone]
  · intro s hs
    refine ⟨?_, ?_, ?_⟩
    · intro hlife
      simp [Sessions.lookup, hs, hlife, sessionsPop_lookup]
    · intro hlife hidle
      have hl : ¬ now - s.started > maxLifespan := by omega
      simp [Sessions.lookup, hs, hl, hidle, sessionsPop_lookup]
    · intro hlife hidle
      have hl : ¬ now - s.started > maxLifespan := by omega
      have hi : ¬ now - s.lastUsed > maxIdle := by omega
      simp [Sessions.lookup, hs, hl, hi, sessionsRefresh_lookup cache sid now s hs]

/-- Claim C9, witness: with max_lifespan 100, max_idle 5 and now 20, the
session (started 0, last_used 18) under id 1 is within both bounds, so the
lookup returns it refreshed and the cache holds last_used = 20. -/
theorem c9_lookup_checks_witness :
    (Sessions.lookup 100 5 20 [(1, ⟨0, 18⟩)] 1).1 = LookupResult.ok ⟨0, 20⟩ ∧
      (Sessions.lookup 100 5 20 [(1, ⟨0, 18⟩)] 1).2.lookup 1 = some ⟨0, 20⟩ :=
  ((c9_lookup_checks 100 5 20 [(1, ⟨0, 18⟩)] 1).2 ⟨0, 18⟩ (by decide)).2.2
    (by norm_num) (by norm_num)
